import Mathlib

/-!
# Verification of the Engram global memory system

Shallow embedding of the memory pipeline of the `engram-vector-memory-mcp`
worker: the ingestion queue consumer (`src/index.ts`, `queue` handler and
`withRetry`), the curator (`curateMemories`), basic search (`handleSearch`
and the `search_memory` tool), rewritten search
(`queryMultipleRewrittenVectors` in `src/db/vectorize.ts`), the two-step
structured generation of the edge provider
(`src/ai/providers/worker-ai.ts`), and the `SignalLogger`
(`src/utils/logger.ts`).

External bindings (the vector index, the relational database, the queue,
the AI models) are modelled as explicit state or as oracle functions
supplied to the embedded code.  Scores and thresholds are rationals.
The relational query helpers of `src/db/queries.ts` are not part of the
source snapshot; they are modelled from the spec where needed, each such
definition is marked in its doc comment.
-/

namespace Engram

/-! ## Data model -/

/-- A row of the `memories` table (`src/db/schema.ts`). -/
structure MemoryRow where
  id : String
  text : String
  tags : String
  sourceApp : String
  sessionId : String
  status : String
  createdAt : Int
  updatedAt : Int
  deriving DecidableEq, Repr

/-- A record stored in the Vectorize index: id, embedding values and the
metadata written by `upsertMemoryVector` (`src/db/vectorize.ts`). -/
structure VectorRecord where
  id : String
  values : List ℚ
  metaCreatedAt : Int
  metaPriorityRank : ℚ
  metaPrimaryTag : String
  deriving DecidableEq, Repr

/-- A match returned by `VECTORIZE.query`: id and cosine similarity score. -/
structure VectorMatch where
  id : String
  score : ℚ
  deriving DecidableEq, Repr

/-- The relational store: the list of rows of the `memories` table, in
storage order. -/
abbrev D1State := List MemoryRow

/-- The vector index: the list of stored vector records. -/
abbrev VecState := List VectorRecord

/-- Model of `VECTORIZE.upsert` with a single record: the record with the same id, if
present, is overwritten; otherwise the record is added. -/
def vecUpsert (vs : VecState) (rec : VectorRecord) : VecState :=
  vs.filter (fun v => v.id ≠ rec.id) ++ [rec]

/-- Model of `VECTORIZE.deleteByIds`: every record whose id is listed is removed
(`deleteMemoryVectors` in `src/db/vectorize.ts` forwards to this). -/
def vecDeleteByIds (vs : VecState) (ids : List String) : VecState :=
  vs.filter (fun v => v.id ∉ ids)

/-! ## Relational query helpers

`src/db/queries.ts` is imported by `src/index.ts` and `src/tools/memory.ts`
but its body is not part of the source snapshot; the following definitions
are modelled from the spec. -/

/-- Modelled from the spec: `getMemoriesByIds` (missing `src/db/queries.ts`)
returns the rows whose id is among the requested ids
(spec §4.2.1 "rows = memory_store.get_by_ids([m.id for m in matches])");
rows come back in storage order. -/
def getMemoriesByIds (db : D1State) (ids : List String) : List MemoryRow :=
  db.filter (fun r => r.id ∈ ids)

/-- Modelled from the spec: `getRawMemories` (missing `src/db/queries.ts`)
fetches up to `n` candidate memories with status `raw`
(spec §4.3 step 1: "Fetch up to W candidate memories with status=raw"). -/
def getRawMemories (db : D1State) (n : Nat) : List MemoryRow :=
  (db.filter (fun r => r.status = "raw")).take n

/-- Modelled from the spec: `deleteMemories` (missing `src/db/queries.ts`)
deletes the rows whose id is among the given ids
(spec §4.3 step h: "Delete duplicate ids from both C3 and C2"). -/
def deleteMemories (db : D1State) (ids : List String) : D1State :=
  db.filter (fun r => r.id ∉ ids)

/-- Modelled from the spec: `updateConsolidatedMemory` (missing
`src/db/queries.ts`) rewrites the row with the given id:
`text ← consolidated`, `status ← consolidated`, `updated_at ← now`
(spec §4.3 step f). -/
def updateConsolidatedMemory (db : D1State) (id : String) (newText : String)
    (now : Int) : D1State :=
  db.map (fun r =>
    if r.id = id then
      { r with text := newText, status := "consolidated", updatedAt := now }
    else r)

/-- Modelled from the spec: `markMemoryProcessed` (missing
`src/db/queries.ts`) transitions the row's status to `processed`
(spec §4.3 step c: "transition m.status ← processed"). -/
def markMemoryProcessed (db : D1State) (id : String) : D1State :=
  db.map (fun r => if r.id = id then { r with status := "processed" } else r)

/-! ## Signal Logger (`src/utils/logger.ts`) -/

/-- A `LogEntry` of the `SignalLogger`. -/
structure LogEntry where
  id : String
  timestamp : String
  type : String
  message : String
  deriving DecidableEq, Repr

/-- The `SignalLogger`'s private state: the `logs` array. -/
structure SignalLogger where
  logs : List LogEntry
  deriving DecidableEq, Repr

/-- The method `SignalLogger.log`: builds an entry and pushes it onto `this.logs`
(`this.logs.push(entry)`); nothing is ever removed here. -/
def SignalLogger.log (st : SignalLogger) (e : LogEntry) : SignalLogger :=
  ⟨st.logs ++ [e]⟩

/-- The method `SignalLogger.getRecentLogs`: `this.logs.slice(-50)`, the last 50
entries of the stored array (or all of them when there are fewer). -/
def SignalLogger.getRecentLogs (st : SignalLogger) : List LogEntry :=
  st.logs.drop (st.logs.length - 50)

/-- Run a sequence of `log` calls from a starting state. -/
def SignalLogger.run (st : SignalLogger) (es : List LogEntry) : SignalLogger :=
  es.foldl SignalLogger.log st

/-- A concrete entry used to evaluate the logger on concrete call
sequences. -/
def mkEntry (n : Nat) : LogEntry :=
  ⟨toString n, "t", "info", "m"⟩

/-! ## Ingestion consumer (`src/index.ts`, `queue` handler and `withRetry`)

One attempt of the retried body runs, in order,
`VectorService.upsertMemoryVector` and then `createMemory`.  A fault
schedule says, for each attempt index, which of the two awaited calls (if
any) rejects.  The execution is recorded as a trace of events. -/

/-- The step of one ingestion attempt that fails: the vector upsert
(which includes the embedding call inside `upsertMemoryVector`) or the
relational insert. `none` in a schedule means the attempt succeeds. -/
inductive FailPoint where
  | vec
  | d1
  deriving DecidableEq, Repr

/-- Observable events of processing one queue message. -/
inductive Event where
  /-- Step `upsertMemoryVector` resolved: the vector record for `id` is written. -/
  | vecDone (id : String)
  /-- Step `createMemory` is invoked: the relational insert begins. -/
  | d1Start (id : String)
  /-- Step `createMemory` resolved: the relational row is written. -/
  | d1Done (id : String)
  /-- A `setTimeout` backoff of `ms` milliseconds between attempts. -/
  | slept (ms : Nat)
  /-- Call `message.ack()` happened. -/
  | acked
  /-- Call `message.retry()` happened. -/
  | retried
  deriving DecidableEq, Repr

/-- The events of one attempt of the retried body, and whether the attempt
succeeded: the body first awaits the vector upsert, then awaits the
relational insert. -/
def attemptEvents (id : String) : Option FailPoint → List Event × Bool
  | some .vec => ([], false)
  | some .d1 => ([.vecDone id, .d1Start id], false)
  | none => ([.vecDone id, .d1Start id, .d1Done id], true)

/-- The loop `withRetry` (`src/index.ts` lines 294-304), event-level simulation:
attempt `i` with `rem` attempts remaining; on failure of the last remaining
attempt the error propagates, otherwise the loop sleeps `2^i * 100` ms and
tries again. Returns the trace and whether some attempt succeeded. -/
def withRetryEvents (sched : Nat → Option FailPoint) (id : String) :
    Nat → Nat → List Event × Bool
  | _, 0 => ([], false)
  | i, rem + 1 =>
    let (evs, ok) := attemptEvents id (sched i)
    if ok then (evs, true)
    else if rem = 0 then (evs, false)
    else
      let (evs', ok') := withRetryEvents sched id (i + 1) rem
      (evs ++ .slept (2 ^ i * 100) :: evs', ok')

/-- Processing of one queue message (`queue` handler, lines 121-156):
the retried body runs with `retries = 3`; on resolution the message is
acked, on a propagated error the catch block calls `message.retry()`. -/
def processMessage (sched : Nat → Option FailPoint) (id : String) :
    List Event :=
  let (evs, ok) := withRetryEvents sched id 0 3
  evs ++ [if ok then .acked else .retried]

/-- The loop `withRetry`, result-level simulation: attempts used, the list of backoff
sleeps in order, and whether some attempt succeeded. `outcomes i = true`
means attempt `i` would succeed. -/
def withRetry (outcomes : Nat → Bool) : Nat → Nat → Nat × List Nat × Bool
  | _, 0 => (0, [], false)
  | i, rem + 1 =>
    if outcomes i then (1, [], true)
    else if rem = 0 then (1, [], false)
    else
      let (a, s, ok) := withRetry outcomes (i + 1) rem
      (a + 1, 2 ^ i * 100 :: s, ok)

/-- The loop `withRetry` as called by the `queue` handler: starting attempt 0 with
the default `retries = 3`. -/
def withRetry3 (outcomes : Nat → Bool) : Nat × List Nat × Bool :=
  withRetry outcomes 0 3

/-- The final action taken on one message: ack when the retried body
resolved, request redelivery when it threw. -/
def consumerAction (outcomes : Nat → Bool) : Event :=
  if (withRetry3 outcomes).2.2 then .acked else .retried

/-- The `queue` handler over a batch: each message is handled by its own
async closure with an internal try/catch, via `Promise.allSettled` over
`batch.messages.map(...)`; message `i` sees only its own fault schedule. -/
def processBatch (scheds : List (Nat → Bool)) : List Event :=
  scheds.map consumerAction

/-! ## Curator (`curateMemories`, `src/index.ts` lines 308-359)

The external calls of the curator — `querySimilarVectors` (embedding plus
`VECTORIZE.query` with `topK = 3`), `AIProvider.generateText` and the
embedding used by `upsertMemoryVector` — are oracles of the environment;
the two stores are explicit state. -/

/-- The curator's environment: the worker env vars plus the AI and vector
oracles. `similar t` is `querySimilarVectors(env, t, 3).matches`. -/
structure CuratorEnv where
  envVars : List (String × ℚ)
  similar : String → List VectorMatch
  genText : String → String
  embed : String → List ℚ
  now : Int

/-- The duplicate-similarity threshold as the code reads it:
`Number(env.SIMILIARITY_THRESHOLD || 0.92)` (`src/index.ts` line 323) —
note the spelling of the binding that is read. -/
def similarityThreshold (envVars : List (String × ℚ)) : ℚ :=
  (envVars.lookup "SIMILIARITY_THRESHOLD").getD (92 / 100)

/-- Modelled from the spec's words, for comparison with
`similarityThreshold`: the threshold as an option named
`SIMILARITY_THRESHOLD`, default 0.92 when unset
(spec §6: "`SIMILARITY_THRESHOLD` — float in (0,1], default 0.92"). -/
def similarityThresholdSpec (envVars : List (String × ℚ)) : ℚ :=
  (envVars.lookup "SIMILARITY_THRESHOLD").getD (92 / 100)

/-- The filter of `curateMemories` line 322-324:
`similar.matches.filter(m => m.id !== memory.id && m.score > Number(env.SIMILIARITY_THRESHOLD || 0.92))`. -/
def curatorMatches (env : CuratorEnv) (memory : MemoryRow) : List VectorMatch :=
  (env.similar memory.text).filter
    (fun m => m.id != memory.id && similarityThreshold env.envVars < m.score)

/-- Modelled from the spec's words, for comparison with `curatorMatches`:
`duplicates = [s for s in similar if s.id ≠ m.id and s.score > T]` with
`T = SIMILARITY_THRESHOLD` (spec §4.3 step b). -/
def curatorMatchesSpec (env : CuratorEnv) (memory : MemoryRow) :
    List VectorMatch :=
  (env.similar memory.text).filter
    (fun m => m.id != memory.id && similarityThresholdSpec env.envVars < m.score)

/-- The hydrated duplicate rows of a candidate:
`getMemoriesByIds(env.DB, matchIds)` (line 328). -/
def curatorDuplicates (env : CuratorEnv) (db : D1State) (memory : MemoryRow) :
    List MemoryRow :=
  getMemoriesByIds db ((curatorMatches env memory).map (·.id))

/-- The consolidation prompt built at line 332. -/
def consolidationPrompt (combinedText : String) : String :=
  "Consolidate these similar memory fragments into one concise, factual statement. Preserve all context tags/dates if possible.\n\n"
    ++ combinedText

/-- The consolidated text produced by the LLM for a candidate: the
`combinedText` join of lines 331 fed through the prompt of line 332 into
`AIProvider.generateText` (lines 334-337). -/
def curatorNewText (env : CuratorEnv) (db : D1State) (memory : MemoryRow) :
    String :=
  env.genText (consolidationPrompt
    (String.intercalate "\n---\n"
      (memory.text :: (curatorDuplicates env db memory).map (·.text))))

/-- One iteration of the curator loop over a candidate `memory`
(`src/index.ts` lines 319-358): filter the similar matches, hydrate the
duplicates; when both are non-empty, consolidate via the LLM, update the
anchor row, upsert the anchor's fresh vector, delete the duplicate ids from
both stores; otherwise mark the candidate processed.  The returned flag
records whether a consolidation (merge-and-delete) was performed. -/
def curateOne (env : CuratorEnv) (st : D1State × VecState)
    (memory : MemoryRow) : (D1State × VecState) × Bool :=
  let (db, vs) := st
  let matchList := curatorMatches env memory
  if 0 < matchList.length then
    let duplicates := curatorDuplicates env db memory
    if 0 < duplicates.length then
      let newText := curatorNewText env db memory
      let db1 := updateConsolidatedMemory db memory.id newText env.now
      let vs1 := vecUpsert vs
        ⟨memory.id, env.embed newText, memory.createdAt, 1, "consolidated"⟩
      let deleteIds := duplicates.map (·.id)
      ((deleteMemories db1 deleteIds, vecDeleteByIds vs1 deleteIds), true)
    else
      ((markMemoryProcessed db memory.id, vs), false)
  else
    ((markMemoryProcessed db memory.id, vs), false)

/-- The curator loop over the snapshot list of candidates, threading both
stores and counting the consolidations performed. -/
def curateLoop (env : CuratorEnv) :
    List MemoryRow → D1State × VecState → (D1State × VecState) × Nat
  | [], st => (st, 0)
  | m :: ms, st =>
    let (st', c) := curateOne env st m
    let (st'', n) := curateLoop env ms st'
    (st'', (if c then 1 else 0) + n)

/-- The curator `curateMemories`: fetch up to 20 raw candidates and run the loop over
that snapshot (lines 311-358). -/
def curateMemories (env : CuratorEnv) (db : D1State) (vs : VecState) :
    (D1State × VecState) × Nat :=
  curateLoop env (getRawMemories db 20) (db, vs)

/-! ## Basic search

Two implementations share the vector→hydrate→merge tail: the HTTP handler
`handleSearch` (`src/index.ts` lines 189-210) and the `search_memory` MCP
tool (`src/tools/memory.ts` lines 54-112).  The vector query result is an
input here (the list of matches returned by `querySimilarVectors`). -/

/-- The `handleSearch` merge step (lines 195-202): hydrate the matched ids from
D1, then map over the *rows* attaching `match?.score`; no sorting is
applied, so the output keeps the hydration order. -/
def handleSearch (db : D1State) (matchList : List VectorMatch) :
    List (MemoryRow × Option ℚ) :=
  let ids := matchList.map (·.id)
  let memories := getMemoriesByIds db ids
  memories.map (fun m =>
    (m, (matchList.find? (fun r => r.id = m.id)).map (·.score)))

/-- Model of `new Map(pairs).get(k) || 0` of the `search_memory` tool: a JS `Map`
built from an entry list keeps the last binding of a duplicated key;
a missing key yields `undefined`, turned into `0` by `|| 0`. -/
def mapGetOrZero (pairs : List (String × ℚ)) (k : String) : ℚ :=
  (pairs.reverse.lookup k).getD 0

/-- Stable descending insertion by score: an element is placed after every
element of greater-or-equal score, mirroring a stable JS
`sort((a, b) => b.score - a.score)` on ties. -/
def insertDesc (x : MemoryRow × ℚ) :
    List (MemoryRow × ℚ) → List (MemoryRow × ℚ)
  | [] => [x]
  | y :: ys => if y.2 ≤ x.2 then x :: y :: ys else y :: insertDesc x ys

/-- Stable sort by score descending, the model of the tool's
`.sort((a, b) => b.score - a.score)` (JS `Array.prototype.sort` is
stable). -/
def sortByScoreDesc : List (MemoryRow × ℚ) → List (MemoryRow × ℚ)
  | [] => []
  | x :: xs => insertDesc x (sortByScoreDesc xs)

/-- The `search_memory` tool merge step (`src/tools/memory.ts` lines
74-91): build the id→score map, hydrate the rows, attach
`scoreMap.get(row.id) || 0` and sort by score descending. -/
def toolSearch (db : D1State) (matchList : List VectorMatch) :
    List (MemoryRow × ℚ) :=
  let scoreMap := matchList.map (fun m => (m.id, m.score))
  let ids := matchList.map (·.id)
  let dbResults := getMemoriesByIds db ids
  sortByScoreDesc (dbResults.map (fun row => (row, mapGetOrZero scoreMap row.id)))

/-! ## Rewritten search (`queryMultipleRewrittenVectors`,
`src/db/vectorize.ts` lines 77-156)

Each query's external calls — `rewriteQuestionForMCP`, `generateEmbedding`
and `VECTORIZE.query` — are that query's oracle; a rejecting call is an
`Except.error`. -/

/-- A vector query response: `{ matches: [...] }` (`matches` is a reserved
word in Lean, hence the field name `vmatches`). -/
structure VResults where
  vmatches : List VectorMatch
  deriving DecidableEq, Repr

/-- The result record emitted per query:
`{originalQuery, rewrittenQuery, vectorResults}`. -/
structure RewrittenQueryResult where
  originalQuery : String
  rewrittenQuery : String
  vectorResults : VResults
  deriving DecidableEq, Repr

/-- The external calls available to one query of the fan-out. `rewrite` is
the result of `rewriteQuestionForMCP` for this query; `embed` and `vquery`
may fail per input. -/
structure QueryOracle where
  rewrite : Except Unit String
  embed : String → Except Unit (List ℚ)
  vquery : List ℚ → Except Unit VResults

/-- Steps 2-3 of the per-query pipeline with a given rewritten text:
embed it, query the vector index, and build the result record. -/
def tryPipeline (o : QueryOracle) (q rw : String) :
    Except Unit RewrittenQueryResult := do
  let values ← o.embed rw
  let vectorResults ← o.vquery values
  pure ⟨q, rw, vectorResults⟩

/-- The per-query closure (lines 96-147): try rewrite + pipeline; on any
failure fall back to the pipeline on the original query; if the fallback
also fails, return `{originalQuery, rewrittenQuery: originalQuery,
vectorResults: {matches: []}}`.  The closure never rejects. -/
def perQuery (q : String) (o : QueryOracle) : RewrittenQueryResult :=
  match (do
      let rw ← o.rewrite
      tryPipeline o q rw : Except Unit RewrittenQueryResult) with
  | .ok r => r
  | .error _ =>
    match tryPipeline o q q with
    | .ok r => r
    | .error _ => ⟨q, q, ⟨[]⟩⟩

/-- The fan-out `queryMultipleRewrittenVectors`: `Promise.allSettled` over
`queries.map(...)` followed by the fulfilled-only filter; since every
per-query closure catches its own errors, every promise fulfills and the
result is the per-query results in input order. -/
def queryMultipleRewrittenVectors (queries : List String)
    (oracles : List QueryOracle) : List RewrittenQueryResult :=
  List.zipWith perQuery queries oracles

/-! ## Structured generation parse stage
(`generateStructured`, `src/ai/providers/worker-ai.ts` lines 196-202)

The structuring model's reply is either already an object or a string; a
string is cleaned with `cleanJsonOutput` and then `JSON.parse`d once.
`JSON.parse` is modelled by a fuel-based recursive-descent parser over a
JSON value grammar (strings without escape processing, unchecked numeric
literal shape — enough for the payloads considered here). -/

/-- A parsed JSON value. -/
inductive JsonVal where
  | null
  | bool (b : Bool)
  | num (lit : String)
  | str (s : String)
  | arr (elems : List JsonVal)
  | obj (fields : List (String × JsonVal))

/-- Skip JSON whitespace. -/
def skipWs : List Char → List Char
  | c :: cs =>
    if c = ' ' ∨ c = '\n' ∨ c = '\t' ∨ c = '\r' then skipWs cs else c :: cs
  | [] => []

/-- Consume an expected literal tail (e.g. `ull` after `n`). -/
def expectLit : List Char → List Char → Option (List Char)
  | [], cs => some cs
  | e :: es, c :: cs => if c = e then expectLit es cs else none
  | _ :: _, [] => none

/-- Scan a JSON string body up to the closing quote; a backslash consumes
the next character verbatim (escape sequences are not decoded). -/
def scanString : Nat → List Char → Option (List Char × List Char)
  | 0, _ => none
  | _, [] => none
  | fuel + 1, c :: cs =>
    if c = '"' then some ([], cs)
    else if c = '\\' then
      match cs with
      | d :: cs' => (scanString fuel cs').map (fun (s, r) => (c :: d :: s, r))
      | [] => none
    else (scanString fuel cs).map (fun (s, r) => (c :: s, r))

/-- Take the longest run of characters allowed inside a numeric literal. -/
def takeNumChars : List Char → List Char × List Char
  | [] => ([], [])
  | c :: cs =>
    if c.isDigit ∨ c = '-' ∨ c = '+' ∨ c = '.' ∨ c = 'e' ∨ c = 'E' then
      let (t, r) := takeNumChars cs
      (c :: t, r)
    else ([], c :: cs)

/-- Parsing modes of the single fuel-based parser: a value, the tail of an
array after `[`, or the tail of an object after `{`. -/
inductive PMode where
  | val
  | elems
  | fields

/-- Fuel-based recursive-descent JSON parser; `elems` returns an `arr`
value and `fields` an `obj` value built from the remaining items. -/
def parseP : Nat → PMode → List Char → Option (JsonVal × List Char)
  | 0, _, _ => none
  | fuel + 1, .val, cs =>
    match skipWs cs with
    | [] => none
    | c :: rest =>
      if c = 'n' then (expectLit ['u', 'l', 'l'] rest).map ((JsonVal.null, ·))
      else if c = 't' then
        (expectLit ['r', 'u', 'e'] rest).map ((JsonVal.bool true, ·))
      else if c = 'f' then
        (expectLit ['a', 'l', 's', 'e'] rest).map ((JsonVal.bool false, ·))
      else if c = '"' then
        (scanString fuel rest).map (fun (s, r) => (JsonVal.str (String.mk s), r))
      else if c = '[' then
        match skipWs rest with
        | ']' :: r => some (.arr [], r)
        | other => parseP fuel .elems other
      else if c = '{' then
        match skipWs rest with
        | '}' :: r => some (.obj [], r)
        | other => parseP fuel .fields other
      else if c = '-' ∨ c.isDigit then
        let (t, r) := takeNumChars (c :: rest)
        some (JsonVal.num (String.mk t), r)
      else none
  | fuel + 1, .elems, cs => do
    let (v, r) ← parseP fuel .val cs
    match skipWs r with
    | ',' :: r2 =>
      match ← parseP fuel .elems r2 with
      | (.arr vs, r3) => some (.arr (v :: vs), r3)
      | _ => none
    | ']' :: r2 => some (.arr [v], r2)
    | _ => none
  | fuel + 1, .fields, cs => do
    match skipWs cs with
    | '"' :: rest => do
      let (k, r) ← scanString fuel rest
      match skipWs r with
      | ':' :: r2 => do
        let (v, r3) ← parseP fuel .val r2
        match skipWs r3 with
        | ',' :: r4 =>
          match ← parseP fuel .fields r4 with
          | (.obj fs, r5) => some (.obj ((String.mk k, v) :: fs), r5)
          | _ => none
        | '}' :: r4 => some (.obj [(String.mk k, v)], r4)
        | _ => none
      | _ => none
    | _ => none

/-- Model of `JSON.parse`: parse one value and require only whitespace after it. -/
def jsonParse (s : String) : Option JsonVal :=
  match parseP (s.length + 1) .val s.toList with
  | some (v, rest) => if skipWs rest = [] then some v else none
  | none => none

/-- Modelled from the spec: `cleanJsonOutput` (missing
`src/ai/utils/sanitizer.ts`) is the best-effort sanitizer of spec §4.4
("strip unbalanced brackets/braces/quotes that would break downstream JSON
parsing"), used at the call site to "clean any potential markdown wrappers
before parsing": it trims whitespace and strips surrounding markdown code
fences; a payload without wrappers passes through unchanged. -/
def cleanJsonOutput (s : String) : String :=
  let t := s.trim
  let t :=
    if t.startsWith "```json" then (t.drop 7).trim
    else if t.startsWith "```" then (t.drop 3).trim
    else t
  if t.endsWith "```" then (t.dropRight 3).trim else t

/-- What the structuring model handed back: an already-decoded object or a
raw string. -/
inductive RawOut where
  | objOut (j : JsonVal)
  | strOut (s : String)

/-- The error surfaced by the parse stage. -/
inductive StructErr where
  /-- The `JSON.parse` exception, rethrown unchanged by the outer catch. -/
  | parseFailure
  /-- The spec's `StructuredGenerationError`. -/
  | structuredGenFailure

/-- The outcome of the single `JSON.parse` call: a parsed value, or the
raw parse error rethrown by the outer catch. -/
def parseResult : Option JsonVal → Except StructErr JsonVal
  | some j => .ok j
  | none => .error .parseFailure

/-- The parse stage as the code performs it (lines 196-199): an object is
returned as-is; a string is cleaned with `cleanJsonOutput` and parsed once;
a parse failure propagates as the raw parse error. -/
def parseStage : RawOut → Except StructErr JsonVal
  | .objOut j => .ok j
  | .strOut s => parseResult (jsonParse (cleanJsonOutput s))

/-- Modelled from the spec's words, for comparison with `parseStage`
(spec §4.4 step 3): parse the JSON; if the parse fails, apply sanitize and
retry the parse once; on second failure surface
`StructuredGenerationError`. -/
def parseStageSpec : RawOut → Except StructErr JsonVal
  | .objOut j => .ok j
  | .strOut s =>
    match jsonParse s with
    | some j => .ok j
    | none =>
      match jsonParse (cleanJsonOutput s) with
      | some j => .ok j
      | none => .error .structuredGenFailure

/-- How many times the code's parse stage invokes `JSON.parse`. -/
def parseAttempts : RawOut → Nat
  | .objOut _ => 0
  | .strOut _ => 1

/-! ## Theorems -/

/-! ### C8 — Signal Logger bound -/

/-- C8 counterexample: after 51 `log` calls starting from a fresh logger,
the stored entry list has length 51 — the in-memory list is *not* bounded
by 50; `log` only pushes and never trims. -/
theorem c8_counterexample :
    (SignalLogger.run ⟨[]⟩ ((List.range 51).map mkEntry)).logs.length = 51 ∧
    ¬ (SignalLogger.run ⟨[]⟩ ((List.range 51).map mkEntry)).logs.length ≤ 50 := by
  with_unfolding_all decide

/-- The stored list after a sequence of `log` calls is the starting list
with every logged entry appended. -/
theorem run_logs (st : SignalLogger) (es : List LogEntry) :
    (SignalLogger.run st es).logs = st.logs ++ es := by
  induction es generalizing st with
  | nil => simp [SignalLogger.run]
  | cons e es ih =>
    simp [SignalLogger.run] at ih ⊢
    rw [ih (st.log e)]
    simp [SignalLogger.log]

/-- C8 (amended): the logger's stored list accumulates every appended
entry without bound, but `getRecentLogs` returns at most 50 entries and
they form a suffix of the stored list — the most recently appended
entries. -/
theorem c8_amended (st : SignalLogger) (es : List LogEntry) :
    (SignalLogger.run st es).logs = st.logs ++ es ∧
    (SignalLogger.run st es).getRecentLogs.length ≤ 50 ∧
    ∃ t, t ++ (SignalLogger.run st es).getRecentLogs =
      (SignalLogger.run st es).logs := by
  refine ⟨run_logs st es, ?_, ?_⟩
  · simp [SignalLogger.getRecentLogs]
    omega
  · exact ⟨(SignalLogger.run st es).logs.take
      ((SignalLogger.run st es).logs.length - 50),
      List.take_append_drop _ _⟩

/-! ### Helper lemmas for the retry loop -/

/-- One unfolding step of `withRetry`. -/
theorem withRetry_succ (outcomes : Nat → Bool) (i rem : Nat) :
    withRetry outcomes i (rem + 1) =
      if outcomes i then (1, [], true)
      else if rem = 0 then (1, [], false)
      else ((withRetry outcomes (i + 1) rem).1 + 1,
            2 ^ i * 100 :: (withRetry outcomes (i + 1) rem).2.1,
            (withRetry outcomes (i + 1) rem).2.2) := by
  rw [withRetry]

/-- Closed form of the three-attempt retry loop. -/
theorem withRetry3_eq (outcomes : Nat → Bool) :
    withRetry3 outcomes =
      if outcomes 0 then (1, [], true)
      else if outcomes 1 then (2, [100], true)
      else (3, [100, 200], outcomes 2) := by
  have e2 : withRetry outcomes 2 (0 + 1) = (1, [], outcomes 2) := by
    rw [withRetry_succ]
    by_cases h2 : outcomes 2 <;> simp [h2]
  have e1 : withRetry outcomes 1 (1 + 1) =
      if outcomes 1 then (1, [], true) else (2, [200], outcomes 2) := by
    rw [withRetry_succ]
    by_cases h1 : outcomes 1 <;> simp [h1, e2]
  show withRetry outcomes 0 (2 + 1) = _
  rw [withRetry_succ]
  by_cases h0 : outcomes 0 <;> simp [h0, e1]
  by_cases h1 : outcomes 1 <;> simp [h1]

/-- Success among the first three attempts, as a boolean disjunction. -/
theorem exists_lt_three_iff (p : Nat → Bool) :
    (∃ i < 3, p i = true) ↔ (p 0 || p 1 || p 2) = true := by
  constructor
  · rintro ⟨i, hi, hp⟩
    interval_cases i <;> simp [hp]
  · intro h
    rcases Bool.or_eq_true_iff.mp h with h | h
    · rcases Bool.or_eq_true_iff.mp h with h | h
      · exact ⟨0, by omega, h⟩
      · exact ⟨1, by omega, h⟩
    · exact ⟨2, by omega, h⟩

/-- The message is acked exactly when one of the three attempts succeeds. -/
theorem consumerAction_acked_iff (s : Nat → Bool) :
    consumerAction s = .acked ↔ ∃ i < 3, s i = true := by
  rw [exists_lt_three_iff]
  by_cases h0 : s 0 <;> by_cases h1 : s 1 <;> by_cases h2 : s 2 <;>
    simp [consumerAction, withRetry3_eq, h0, h1, h2]

/-- The message is marked for redelivery exactly when no attempt succeeds. -/
theorem consumerAction_retried_iff (s : Nat → Bool) :
    consumerAction s = .retried ↔ ¬ ∃ i < 3, s i = true := by
  rw [exists_lt_three_iff]
  by_cases h0 : s 0 <;> by_cases h1 : s 1 <;> by_cases h2 : s 2 <;>
    simp [consumerAction, withRetry3_eq, h0, h1, h2]

/-! ### C3 — bounded retry with exponential backoff, ack iff success -/

/-- C3: the retried body of the queue consumer runs at most 3 attempts; the
sleep after the `i`-th failure (0-based) is `2^i * 100` ms, so the sleeps
performed are exactly `[2^0*100, ..., 2^(a-2)*100]` for `a` attempts; the
message is acked iff some of the three attempts succeeds, and when all
three fail the consumer calls `message.retry()` instead of acking. -/
theorem c3_boundedRetry (outcomes : Nat → Bool) :
    (withRetry3 outcomes).1 ≤ 3 ∧
    (withRetry3 outcomes).2.1 =
      (List.range ((withRetry3 outcomes).1 - 1)).map (fun i => 2 ^ i * 100) ∧
    (consumerAction outcomes = .acked ↔ ∃ i < 3, outcomes i = true) ∧
    ((¬ ∃ i < 3, outcomes i = true) → consumerAction outcomes = .retried) := by
  refine ⟨?_, ?_, consumerAction_acked_iff outcomes,
    fun h => (consumerAction_retried_iff outcomes).mpr h⟩
  · rw [withRetry3_eq]
    by_cases h0 : outcomes 0 <;> by_cases h1 : outcomes 1 <;> simp [h0, h1]
  · rw [withRetry3_eq]
    by_cases h0 : outcomes 0 <;> by_cases h1 : outcomes 1 <;>
      simp [h0, h1] <;> decide

/-- C3 witness: with the schedule on which every attempt fails, no attempt
succeeds, the loop stays within 3 attempts and the message is marked for
redelivery instead of being acked. -/
theorem c3_witness :
    (¬ ∃ i < 3, (fun _ : Nat => false) i = true) ∧
    (withRetry3 (fun _ : Nat => false)).1 ≤ 3 ∧
    consumerAction (fun _ : Nat => false) = .retried :=
  ⟨by simp, (c3_boundedRetry (fun _ => false)).1,
   (c3_boundedRetry (fun _ => false)).2.2.2 (by simp)⟩

/-! ### C2 — intra-message write ordering -/

/-- No trace position 0 is a relational-insert start. -/
def noLeadingInsert (t : List Event) : Prop :=
  ∀ id, t.get? 0 ≠ some (.d1Start id)

/-- Every relational-insert start is immediately preceded by the completed
vector upsert of the same memory id. -/
def insertPrecededByUpsert (t : List Event) : Prop :=
  ∀ j id, t.get? j = some (.d1Start id) →
    ∃ k, j = k + 1 ∧ t.get? k = some (.vecDone id)

/-- The conjunction threaded through the trace concatenations. -/
def goodTrace (t : List Event) : Prop :=
  insertPrecededByUpsert t ∧ noLeadingInsert t

theorem goodTrace_nil : goodTrace [] := by
  constructor <;> intro j <;> simp [noLeadingInsert, insertPrecededByUpsert]

theorem goodTrace_append {t1 t2 : List Event} (h1 : goodTrace t1)
    (h2 : goodTrace t2) : goodTrace (t1 ++ t2) := by
  refine ⟨?_, ?_⟩
  · intro j id hj
    rcases Nat.lt_or_ge j t1.length with hlt | hge
    · rw [List.get?_append hlt] at hj
      obtain ⟨k, rfl, hk⟩ := h1.1 j id hj
      refine ⟨k, rfl, ?_⟩
      rw [List.get?_append (by omega)]
      exact hk
    · rw [List.get?_append_right hge] at hj
      rcases hge.lt_or_eq with hgt | heq
      · obtain ⟨k, hk_eq, hk⟩ := h2.1 (j - t1.length) id hj
        refine ⟨t1.length + k, by omega, ?_⟩
        rw [List.get?_append_right (by omega)]
        have : t1.length + k - t1.length = k := by omega
        rw [this]
        exact hk
      · rw [heq, Nat.sub_self] at hj
        exact absurd hj (h2.2 id)
  · intro id
    rcases Nat.eq_zero_or_pos t1.length with hz | hp
    · rw [List.eq_nil_of_length_eq_zero hz]
      simpa using h2.2 id
    · rw [List.get?_append hp]
      exact h1.2 id

theorem goodTrace_attempt (id : String) (fp : Option FailPoint) :
    goodTrace (attemptEvents id fp).1 := by
  rcases fp with _ | fp
  · refine ⟨?_, ?_⟩
    · intro j id' hj
      match j with
      | 0 => simp [attemptEvents] at hj
      | 1 =>
        simp [attemptEvents] at hj
        exact ⟨0, rfl, by simp [attemptEvents, hj]⟩
      | 2 => simp [attemptEvents] at hj
      | n + 3 => simp [attemptEvents, List.get?] at hj
    · intro id'
      simp [attemptEvents]
  · cases fp
    · exact goodTrace_nil
    · refine ⟨?_, ?_⟩
      · intro j id' hj
        match j with
        | 0 => simp [attemptEvents] at hj
        | 1 =>
          simp [attemptEvents] at hj
          exact ⟨0, rfl, by simp [attemptEvents, hj]⟩
        | n + 2 => simp [attemptEvents, List.get?] at hj
      · intro id'
        simp [attemptEvents]

theorem goodTrace_single {e : Event} (h : ∀ id, e ≠ .d1Start id) :
    goodTrace [e] := by
  refine ⟨?_, ?_⟩
  · intro j id hj
    match j with
    | 0 => simp at hj; exact absurd hj (h id)
    | n + 1 => simp [List.get?] at hj
  · intro id
    simpa using h id

theorem goodTrace_slept (ms : Nat) : goodTrace [Event.slept ms] :=
  goodTrace_single (by intro _ h; cases h)

theorem goodTrace_withRetryEvents (sched : Nat → Option FailPoint)
    (id : String) (i rem : Nat) :
    goodTrace (withRetryEvents sched id i rem).1 := by
  induction rem generalizing i with
  | zero => exact goodTrace_nil
  | succ rem ih =>
    rw [withRetryEvents]
    rcases hfp : sched i with _ | fp
    · exact goodTrace_attempt id none
    · rcases Nat.eq_zero_or_pos rem with hz | hp
      · subst hz
        cases fp
        · exact goodTrace_attempt id (some .vec)
        · exact goodTrace_attempt id (some .d1)
      · have hrem : ¬ rem = 0 := by omega
        have ih' := ih (i + 1)
        rcases hr : withRetryEvents sched id (i + 1) rem with ⟨evs', ok'⟩
        rw [hr] at ih'
        cases fp
        · simp only [attemptEvents, Bool.false_eq_true, if_false, hrem,
            List.nil_append]
          exact goodTrace_append (goodTrace_slept _) ih'
        · simp only [attemptEvents, Bool.false_eq_true, if_false, hrem,
            List.cons_append, List.nil_append]
          exact goodTrace_append (goodTrace_attempt id (some .d1))
            (goodTrace_append (goodTrace_slept _) ih')

theorem goodTrace_processMessage (sched : Nat → Option FailPoint)
    (id : String) : goodTrace (processMessage sched id) := by
  have hfin : ∀ b : Bool,
      goodTrace [if b then Event.acked else Event.retried] := by
    intro b
    cases b
    · exact goodTrace_single (by intro _ h; cases h)
    · exact goodTrace_single (by intro _ h; cases h)
  unfold processMessage
  exact goodTrace_append (goodTrace_withRetryEvents sched id 0 3)
    (hfin (withRetryEvents sched id 0 3).2)

/-- C2: in the trace of one queue message, every start of the relational
insert is immediately preceded by the completed vector upsert of the same
id — in every attempt the vector record is written before the relational
row, so the row is never written first. -/
theorem c2_vectorBeforeRow (sched : Nat → Option FailPoint) (msgId : String)
    (j : Nat) (id : String)
    (hj : (processMessage sched msgId).get? j = some (.d1Start id)) :
    ∃ k, j = k + 1 ∧
      (processMessage sched msgId).get? k = some (.vecDone id) :=
  (goodTrace_processMessage sched msgId).1 j id hj

/-- C2 witness: with the fault-free schedule the message trace is
`[vecDone, d1Start, d1Done, acked]` and the insert start at position 1 is
preceded by the vector upsert at position 0. -/
theorem c2_witness :
    (processMessage (fun _ => none) "m").get? 1 = some (.d1Start "m") ∧
    ∃ k, 1 = k + 1 ∧
      (processMessage (fun _ => none) "m").get? k = some (.vecDone "m") :=
  ⟨by with_unfolding_all decide,
   c2_vectorBeforeRow (fun _ => none) "m" 1 "m" (by with_unfolding_all decide)⟩

/-! ### C10 — batch independence -/

/-- C10: the queue handler maps each message of a batch to its own action:
the result list has one action per message, the `i`-th action depends only
on the `i`-th message's fault schedule, a message is acked iff one of its
own three attempts succeeds and is marked for redelivery iff all fail — a
failing message never prevents the handling of its batch siblings. -/
theorem c10_batchIndependence (scheds : List (Nat → Bool)) :
    (processBatch scheds).length = scheds.length ∧
    (∀ i, (processBatch scheds).get? i = (scheds.get? i).map consumerAction) ∧
    (∀ s : Nat → Bool,
      (consumerAction s = .acked ↔ ∃ i < 3, s i = true) ∧
      (consumerAction s = .retried ↔ ¬ ∃ i < 3, s i = true)) :=
  ⟨List.length_map _ _, fun i => List.get?_map _ _ i,
   fun s => ⟨consumerAction_acked_iff s, consumerAction_retried_iff s⟩⟩

/-! ### C5 — consolidations per curator invocation -/

/-- An anchor candidate row for the curator counterexample. -/
def c5Anchor (i : Nat) : MemoryRow :=
  ⟨"a" ++ toString i, "ta" ++ toString i, "[]", "app", "sess", "raw", 0, 0⟩

/-- A near-duplicate row for the curator counterexample. -/
def c5Dup (i : Nat) : MemoryRow :=
  ⟨"b" ++ toString i, "tb" ++ toString i, "[]", "app", "sess",
    "consolidated", 0, 0⟩

/-- A store with 11 raw candidates, each having one near-duplicate row. -/
def c5Db : D1State :=
  (List.range 11).map c5Anchor ++ (List.range 11).map c5Dup

/-- A similarity oracle pairing each candidate's text with its duplicate at
score 0.95. -/
def c5Similar (t : String) : List VectorMatch :=
  (((List.range 11).map
      (fun i => ("ta" ++ toString i,
        [VectorMatch.mk ("b" ++ toString i) (19 / 20)]))).lookup t).getD []

/-- The curator environment of the C5 counterexample: default threshold. -/
def c5Env : CuratorEnv := ⟨[], c5Similar, fun _ => "merged", fun _ => [], 7⟩

/-- C5 counterexample: on a store with 11 raw candidates that each have a
near-duplicate above the threshold, one curator invocation performs 11
consolidations — more than the claimed cap of 10; the code has no such
cap. -/
theorem c5_counterexample :
    (curateMemories c5Env c5Db []).2 = 11 ∧
    ¬ (curateMemories c5Env c5Db []).2 ≤ 10 := by
  with_unfolding_all decide

/-- The loop performs at most one consolidation per candidate. -/
theorem curateLoop_count_le (env : CuratorEnv) (ms : List MemoryRow) :
    ∀ st, (curateLoop env ms st).2 ≤ ms.length := by
  induction ms with
  | nil => intro st; simp [curateLoop]
  | cons m ms ih =>
    intro st
    rcases h1 : curateOne env st m with ⟨st', c⟩
    rcases h2 : curateLoop env ms st' with ⟨st'', n⟩
    have hn : n ≤ ms.length := by
      have := ih st'
      rw [h2] at this
      exact this
    simp only [curateLoop, h1, h2, List.length_cons]
    cases c <;> simp <;> omega

/-- C5 (amended): one curator invocation performs at most 20
consolidations — bounded by the batch of 20 raw candidates it fetches, not
by a cap of 10. -/
theorem c5_amended (env : CuratorEnv) (db : D1State) (vs : VecState) :
    (curateMemories env db vs).2 ≤ 20 :=
  le_trans (curateLoop_count_le env (getRawMemories db 20) (db, vs))
    (by simp [getRawMemories])

/-! ### C6 — the similarity-threshold option -/

/-- The curator environment of the C6 counterexample: the (correctly
spelled) option `SIMILARITY_THRESHOLD` is set to 0.5; the similarity
oracle returns one match of score 0.7 with a different id. -/
def c6Env : CuratorEnv :=
  ⟨[("SIMILARITY_THRESHOLD", 1 / 2)], fun _ => [⟨"s", 7 / 10⟩],
    fun _ => "", fun _ => [], 0⟩

/-- The candidate memory of the C6 counterexample. -/
def c6Mem : MemoryRow := ⟨"m", "tm", "[]", "app", "sess", "raw", 0, 0⟩

/-- C6 counterexample: with the environment option
`SIMILARITY_THRESHOLD = 0.5`, the match `s` (id ≠ m.id, score 0.7 > 0.5)
is a duplicate according to the claim, but the code's filter rejects it:
the code reads the binding `SIMILIARITY_THRESHOLD` (note the spelling), so
the option named in the claim does not control the threshold. -/
theorem c6_counterexample :
    c6Env.envVars.lookup "SIMILARITY_THRESHOLD" = some (1 / 2) ∧
    curatorMatchesSpec c6Env c6Mem = [⟨"s", 7 / 10⟩] ∧
    curatorMatches c6Env c6Mem = [] := by
  with_unfolding_all decide

/-- Any id-preserving row rewrite keeps a row with each original id. -/
theorem exists_id_after_map (db : D1State) (f : MemoryRow → MemoryRow)
    (hf : ∀ x, (f x).id = x.id) {r : MemoryRow} (hr : r ∈ db) :
    ∃ r' ∈ db.map f, r'.id = r.id :=
  ⟨f r, List.mem_map_of_mem f hr, hf r⟩

/-- Updating via `updateConsolidatedMemory` keeps a row with each original id. -/
theorem exists_id_after_update (db : D1State) (id txt : String) (now : Int)
    {r : MemoryRow} (hr : r ∈ db) :
    ∃ r' ∈ updateConsolidatedMemory db id txt now, r'.id = r.id := by
  rw [updateConsolidatedMemory]
  exact exists_id_after_map db _
    (by intro x; by_cases hx : x.id = id <;> simp [hx]) hr

/-- Updating via `markMemoryProcessed` keeps a row with each original id. -/
theorem exists_id_after_processed (db : D1State) (id : String)
    {r : MemoryRow} (hr : r ∈ db) :
    ∃ r' ∈ markMemoryProcessed db id, r'.id = r.id := by
  rw [markMemoryProcessed]
  exact exists_id_after_map db _
    (by intro x; by_cases hx : x.id = id <;> simp [hx]) hr

/-- The relational store after the merge branch of `curateOne`. -/
theorem curateOne_merge (env : CuratorEnv) (db : D1State) (vs : VecState)
    (m : MemoryRow) (hm : 0 < (curatorMatches env m).length)
    (hd : 0 < (curatorDuplicates env db m).length) :
    curateOne env (db, vs) m =
      ((deleteMemories
          (updateConsolidatedMemory db m.id (curatorNewText env db m) env.now)
          ((curatorDuplicates env db m).map (·.id)),
        vecDeleteByIds
          (vecUpsert vs
            ⟨m.id, env.embed (curatorNewText env db m), m.createdAt, 1,
              "consolidated"⟩)
          ((curatorDuplicates env db m).map (·.id))),
       true) := by
  rw [curateOne]
  simp [hm, hd]

/-- The relational store after the no-match branch of `curateOne`. -/
theorem curateOne_noMatch (env : CuratorEnv) (db : D1State) (vs : VecState)
    (m : MemoryRow) (hm : ¬ 0 < (curatorMatches env m).length) :
    curateOne env (db, vs) m = ((markMemoryProcessed db m.id, vs), false) := by
  rw [curateOne]
  simp [hm]

/-- The relational store after the no-duplicate-rows branch of
`curateOne`. -/
theorem curateOne_noDupRows (env : CuratorEnv) (db : D1State) (vs : VecState)
    (m : MemoryRow) (hm : 0 < (curatorMatches env m).length)
    (hd : ¬ 0 < (curatorDuplicates env db m).length) :
    curateOne env (db, vs) m = ((markMemoryProcessed db m.id, vs), false) := by
  rw [curateOne]
  simp [hm, hd]

/-- C6 (amended): the duplicate-similarity threshold is read from the
environment binding `SIMILIARITY_THRESHOLD` (sic — not the spelling
`SIMILARITY_THRESHOLD`), defaulting to 0.92 when unset; a similar match is
counted as a duplicate iff its id differs from the candidate's and its
score is strictly greater than this threshold, and the curator deletes a
row from the relational store only when some such match carries its id. -/
theorem c6_amended (env : CuratorEnv) (m : MemoryRow) :
    (∀ s, s ∈ curatorMatches env m ↔
      s ∈ env.similar m.text ∧ s.id ≠ m.id ∧
        (env.envVars.lookup "SIMILIARITY_THRESHOLD").getD (92 / 100) <
          s.score) ∧
    (∀ db vs r, r ∈ db →
      (∀ r' ∈ (curateOne env (db, vs) m).1.1, r'.id ≠ r.id) →
      ∃ s ∈ env.similar m.text, s.id = r.id ∧ s.id ≠ m.id ∧
        (env.envVars.lookup "SIMILIARITY_THRESHOLD").getD (92 / 100) <
          s.score) := by
  have hchar : ∀ s, s ∈ curatorMatches env m ↔
      s ∈ env.similar m.text ∧ s.id ≠ m.id ∧
        (env.envVars.lookup "SIMILIARITY_THRESHOLD").getD (92 / 100) <
          s.score := by
    intro s
    simp [curatorMatches, similarityThreshold, List.mem_filter,
      Bool.and_eq_true, bne_iff_ne, decide_eq_true_eq, and_assoc]
  refine ⟨hchar, ?_⟩
  intro db vs r hr hgone
  by_cases hm : 0 < (curatorMatches env m).length
  · by_cases hd : 0 < (curatorDuplicates env db m).length
    · rw [curateOne_merge env db vs m hm hd] at hgone
      have hid : r.id ∈ (curatorDuplicates env db m).map (·.id) := by
        by_contra hnot
        obtain ⟨r', hr', hrid⟩ :=
          exists_id_after_update db m.id (curatorNewText env db m) env.now hr
        refine absurd hrid (hgone r' ?_)
        rw [deleteMemories, List.mem_filter]
        refine ⟨hr', ?_⟩
        simp only [decide_eq_true_eq]
        rw [hrid]
        exact hnot
      obtain ⟨d, hd_mem, hd_id⟩ := List.mem_map.mp hid
      have hd_ids : d.id ∈ (curatorMatches env m).map (·.id) := by
        have hmem := (List.mem_filter.mp hd_mem).2
        simpa using hmem
      obtain ⟨sm, hs_mem, hs_id⟩ := List.mem_map.mp hd_ids
      obtain ⟨hs_sim, hs_ne, hs_thr⟩ := (hchar sm).mp hs_mem
      exact ⟨sm, hs_sim, by rw [hs_id, hd_id], hs_ne, hs_thr⟩
    · rw [curateOne_noDupRows env db vs m hm hd] at hgone
      obtain ⟨r', hr', hrid⟩ := exists_id_after_processed db m.id hr
      exact absurd hrid (hgone r' hr')
  · rw [curateOne_noMatch env db vs m hm] at hgone
    obtain ⟨r', hr', hrid⟩ := exists_id_after_processed db m.id hr
    exact absurd hrid (hgone r' hr')

/-! ### C1 — consolidation removes duplicates, anchor survives -/

/-- C1: when the curator's consolidation operation fires for an anchor `m`
(the hydrated duplicate set is non-empty), the resulting relational store
still contains a row with the anchor's id, while no relational row and no
vector record with an id from the duplicate set remains. -/
theorem c1_consolidation (env : CuratorEnv) (db : D1State) (vs : VecState)
    (m : MemoryRow) (hrow : ∃ r ∈ db, r.id = m.id)
    (hdup : curatorDuplicates env db m ≠ []) :
    (curateOne env (db, vs) m).2 = true ∧
    (∃ r ∈ (curateOne env (db, vs) m).1.1, r.id = m.id) ∧
    (∀ d ∈ (curatorDuplicates env db m).map (·.id),
      (∀ r ∈ (curateOne env (db, vs) m).1.1, r.id ≠ d) ∧
      (∀ v ∈ (curateOne env (db, vs) m).1.2, v.id ≠ d)) := by
  have hd : 0 < (curatorDuplicates env db m).length := List.length_pos.mpr hdup
  have hm : 0 < (curatorMatches env m).length := by
    obtain ⟨d, hdm⟩ := List.exists_mem_of_ne_nil _ hdup
    have hmem : d.id ∈ (curatorMatches env m).map (·.id) := by
      have := (List.mem_filter.mp hdm).2
      simpa using this
    obtain ⟨sm, hs, _⟩ := List.mem_map.mp hmem
    exact List.length_pos.mpr (fun heq => by simp [heq] at hs)
  have hm_not_dup : m.id ∉ (curatorDuplicates env db m).map (·.id) := by
    intro hmem
    obtain ⟨d, hdmem, hdid⟩ := List.mem_map.mp hmem
    have hids : d.id ∈ (curatorMatches env m).map (·.id) := by
      have := (List.mem_filter.mp hdmem).2
      simpa using this
    obtain ⟨sm, hs_mem, hs_id⟩ := List.mem_map.mp hids
    have hs_ne : sm.id ≠ m.id := by
      have hp := (List.mem_filter.mp hs_mem).2
      simp only [Bool.and_eq_true, bne_iff_ne] at hp
      exact hp.1
    exact hs_ne (by rw [hs_id, hdid])
  rw [curateOne_merge env db vs m hm hd]
  refine ⟨rfl, ?_, ?_⟩
  · obtain ⟨r, hrdb, hrid⟩ := hrow
    obtain ⟨r', hr', hrid'⟩ :=
      exists_id_after_update db m.id (curatorNewText env db m) env.now hrdb
    refine ⟨r', ?_, by rw [hrid', hrid]⟩
    rw [deleteMemories, List.mem_filter]
    refine ⟨hr', ?_⟩
    simp only [decide_eq_true_eq]
    rw [hrid', hrid]
    exact hm_not_dup
  · intro dId hdId
    constructor
    · intro r hr
      rw [deleteMemories, List.mem_filter] at hr
      have hnot := hr.2
      simp only [decide_eq_true_eq] at hnot
      intro heq
      exact hnot (heq ▸ hdId)
    · intro v hv
      rw [vecDeleteByIds, List.mem_filter] at hv
      have hnot := hv.2
      simp only [decide_eq_true_eq] at hnot
      intro heq
      exact hnot (heq ▸ hdId)

/-! ### Concrete curator fixture for witnesses -/

/-- A concrete anchor memory. -/
def wMem : MemoryRow := ⟨"m", "tm", "[]", "app", "sess", "raw", 0, 0⟩

/-- A concrete near-duplicate row. -/
def wDup : MemoryRow := ⟨"d", "td", "[]", "app", "sess", "raw", 0, 0⟩

/-- A concrete store holding the anchor and its duplicate. -/
def wDb : D1State := [wMem, wDup]

/-- A concrete curator environment whose similarity oracle reports the
duplicate at score 0.95, above the default threshold. -/
def wEnv : CuratorEnv :=
  ⟨[], fun _ => [⟨"d", 19 / 20⟩], fun _ => "merged", fun _ => [], 5⟩

/-- C1 witness: on the concrete two-row store, consolidating the anchor
keeps a row with the anchor's id. -/
theorem c1_witness :
    (∃ r ∈ wDb, r.id = wMem.id) ∧ curatorDuplicates wEnv wDb wMem ≠ [] ∧
    ∃ r ∈ (curateOne wEnv (wDb, []) wMem).1.1, r.id = wMem.id :=
  ⟨by with_unfolding_all decide, by with_unfolding_all decide,
   (c1_consolidation wEnv wDb [] wMem (by with_unfolding_all decide)
     (by with_unfolding_all decide)).2.1⟩

/-- C6 witness: on the concrete two-row store the duplicate row is removed,
and the amended theorem exhibits the similar match above the
`SIMILIARITY_THRESHOLD`-controlled threshold that justified it. -/
theorem c6_witness :
    wDup ∈ wDb ∧
    (∀ r' ∈ (curateOne wEnv (wDb, []) wMem).1.1, r'.id ≠ wDup.id) ∧
    ∃ s ∈ wEnv.similar wMem.text, s.id = wDup.id ∧ s.id ≠ wMem.id ∧
      (wEnv.envVars.lookup "SIMILIARITY_THRESHOLD").getD (92 / 100) <
        s.score :=
  ⟨by with_unfolding_all decide, by with_unfolding_all decide,
   (c6_amended wEnv wMem).2 wDb [] wDup (by with_unfolding_all decide)
     (by with_unfolding_all decide)⟩

/-! ### C4 — basic search ordering -/

/-- The two rows of the C4 counterexample. -/
def c4RowA : MemoryRow := ⟨"a", "t1", "[]", "app", "sess", "raw", 1, 1⟩

/-- Second row of the C4 counterexample. -/
def c4RowB : MemoryRow := ⟨"b", "t2", "[]", "app", "sess", "raw", 2, 2⟩

/-- The vector matches of the C4 counterexample: `b` scores 0.9, `a`
scores 0.3. -/
def c4Matches : List VectorMatch := [⟨"b", 9 / 10⟩, ⟨"a", 3 / 10⟩]

/-- Equal-score matches for the tie part of the C4 counterexample. -/
def c4TieMatches : List VectorMatch := [⟨"a", 1 / 2⟩, ⟨"b", 1 / 2⟩]

/-- C4 counterexample.  First part: `handleSearch` applies no sort — its
output keeps the hydration order of the relational store, so with store
order `[a, b]` and scores `a ↦ 0.3`, `b ↦ 0.9` the emitted score sequence
is `[0.3, 0.9]`, which is not descending.  Second part: the `search_memory`
tool breaks ties by hydration order, not by `created_at` descending — with
both rows scoring 0.5 and `a.created_at = 1 < 2 = b.created_at`, the tool
emits `[a, b]`, whose `created_at` sequence `[1, 2]` is not descending. -/
theorem c4_counterexample :
    ((handleSearch [c4RowA, c4RowB] c4Matches).map (·.2) =
      [some (3 / 10), some (9 / 10)] ∧
    ¬ ((handleSearch [c4RowA, c4RowB] c4Matches).map (·.2)).Pairwise
        (fun a b => b.getD 0 ≤ a.getD 0)) ∧
    ((toolSearch [c4RowA, c4RowB] c4TieMatches).map
        (fun p => (p.1.id, p.2)) = [("a", 1 / 2), ("b", 1 / 2)] ∧
    c4RowA.createdAt < c4RowB.createdAt ∧
    ¬ ((toolSearch [c4RowA, c4RowB] c4TieMatches).map
        (·.1.createdAt)).Pairwise (fun a b => b ≤ a)) := by
  with_unfolding_all decide

theorem mem_insertDesc (x z : MemoryRow × ℚ) (l : List (MemoryRow × ℚ)) :
    z ∈ insertDesc x l ↔ z = x ∨ z ∈ l := by
  induction l with
  | nil => simp [insertDesc]
  | cons y ys ih =>
    rw [insertDesc]
    by_cases h : y.2 ≤ x.2
    · rw [if_pos h]
      simp
    · rw [if_neg h]
      simp only [List.mem_cons, ih]
      tauto

theorem pairwise_insertDesc (x : MemoryRow × ℚ) (l : List (MemoryRow × ℚ))
    (hl : l.Pairwise (fun a b => b.2 ≤ a.2)) :
    (insertDesc x l).Pairwise (fun a b => b.2 ≤ a.2) := by
  induction l with
  | nil => simp [insertDesc]
  | cons y ys ih =>
    rw [insertDesc]
    rcases List.pairwise_cons.mp hl with ⟨hy, hys⟩
    by_cases h : y.2 ≤ x.2
    · rw [if_pos h]
      refine List.pairwise_cons.mpr ⟨?_, hl⟩
      intro z hz
      rcases List.mem_cons.mp hz with rfl | hz
      · exact h
      · exact le_trans (hy z hz) h
    · rw [if_neg h]
      refine List.pairwise_cons.mpr ⟨?_, ih hys⟩
      intro z hz
      rcases (mem_insertDesc x z ys).mp hz with rfl | hz
      · exact le_of_not_le h
      · exact hy z hz

theorem pairwise_sortByScoreDesc (l : List (MemoryRow × ℚ)) :
    (sortByScoreDesc l).Pairwise (fun a b => b.2 ≤ a.2) := by
  induction l with
  | nil => simp [sortByScoreDesc]
  | cons x xs ih => exact pairwise_insertDesc x (sortByScoreDesc xs) ih

/-- Inserting an element passes over strictly greater scores only, so the
sublist of any fixed score value gains `x` at the front exactly when `x`
carries that score, and is otherwise untouched. -/
theorem filter_insertDesc (x : MemoryRow × ℚ) (l : List (MemoryRow × ℚ))
    (q : ℚ) :
    (insertDesc x l).filter (fun p => decide (p.2 = q)) =
      if x.2 = q then x :: l.filter (fun p => decide (p.2 = q))
      else l.filter (fun p => decide (p.2 = q)) := by
  induction l with
  | nil =>
    by_cases hx : x.2 = q <;> simp [insertDesc, hx]
  | cons y ys ih =>
    rw [insertDesc]
    by_cases h : y.2 ≤ x.2
    · rw [if_pos h]
      by_cases hx : x.2 = q <;> simp [List.filter_cons, hx]
    · rw [if_neg h]
      have hxy : x.2 < y.2 := lt_of_not_le h
      by_cases hy : y.2 = q
      · have hx : ¬ x.2 = q := by
          rw [← hy]
          exact ne_of_lt hxy
        simp [List.filter_cons, hy, hx, ih]
      · by_cases hx : x.2 = q <;> simp [List.filter_cons, hy, hx, ih]

/-- Stability of the score sort: for every score value, the sorted list
keeps the equal-score elements exactly in their input order. -/
theorem filter_sortByScoreDesc (l : List (MemoryRow × ℚ)) (q : ℚ) :
    (sortByScoreDesc l).filter (fun p => decide (p.2 = q)) =
      l.filter (fun p => decide (p.2 = q)) := by
  induction l with
  | nil => rfl
  | cons x xs ih =>
    rw [sortByScoreDesc, filter_insertDesc]
    by_cases hx : x.2 = q <;> simp [List.filter_cons, hx, ih]

/-- C4 (amended): the HTTP `handleSearch` performs no sort — it returns
the hydrated rows in relational-store order with scores attached — while
the `search_memory` tool sorts its output by score descending, with ties
left in hydration order rather than broken by `created_at`: for every
score value, the equal-score results of the tool appear exactly in the
order of the hydrated row list. -/
theorem c4_amended :
    (∀ db ml, (handleSearch db ml).map (·.1) =
      getMemoriesByIds db (ml.map (·.id))) ∧
    (∀ db ml, ((toolSearch db ml).map (·.2)).Pairwise
      (fun a b : ℚ => b ≤ a)) ∧
    (∀ db ml q, (toolSearch db ml).filter (fun p => decide (p.2 = q)) =
      ((getMemoriesByIds db (ml.map (·.id))).map
        (fun row =>
          (row, mapGetOrZero (ml.map (fun m => (m.id, m.score))) row.id))).filter
        (fun p => decide (p.2 = q))) := by
  refine ⟨?_, ?_, ?_⟩
  · intro db ml
    rw [handleSearch]
    rw [List.map_map]
    simp [Function.comp_def]
  · intro db ml
    rw [toolSearch]
    have := pairwise_sortByScoreDesc
      ((getMemoriesByIds db (ml.map (·.id))).map
        (fun row => (row, mapGetOrZero (ml.map (fun m => (m.id, m.score))) row.id)))
    exact List.Pairwise.map _ (fun a b h => h) this
  · intro db ml q
    rw [toolSearch]
    exact filter_sortByScoreDesc _ q

/-! ### C7 — per-query fallback of rewritten search -/

/-- A successful pipeline run returns the record built from its query and
rewritten text. -/
theorem tryPipeline_ok (o : QueryOracle) (q rw : String)
    (r : RewrittenQueryResult) (h : tryPipeline o q rw = .ok r) :
    r.originalQuery = q ∧ r.rewrittenQuery = rw := by
  rcases he : o.embed rw with e | vals
  · rw [tryPipeline, he] at h
    cases h
  · rw [tryPipeline, he] at h
    have h2 : (do
        let vectorResults ← o.vquery vals
        pure ⟨q, rw, vectorResults⟩ : Except Unit RewrittenQueryResult) =
          .ok r := h
    rcases hv : o.vquery vals with e | res
    · rw [hv] at h2
      cases h2
    · rw [hv] at h2
      have h3 : (Except.ok (⟨q, rw, res⟩ : RewrittenQueryResult) :
          Except Unit RewrittenQueryResult) = .ok r := h2
      cases h3
      exact ⟨rfl, rfl⟩

/-- The per-query closure echoes its original query. -/
theorem perQuery_originalQuery (q : String) (o : QueryOracle) :
    (perQuery q o).originalQuery = q := by
  rcases hr : o.rewrite with e | rw
  · have hmain : (do
        let rw ← o.rewrite
        tryPipeline o q rw : Except Unit RewrittenQueryResult) = .error e := by
      rw [hr]
      rfl
    rcases hfb : tryPipeline o q q with e' | r'
    · rw [perQuery, hmain, hfb]
    · rw [perQuery, hmain, hfb]
      exact (tryPipeline_ok o q q r' hfb).1
  · have hmain : (do
        let rw ← o.rewrite
        tryPipeline o q rw : Except Unit RewrittenQueryResult) =
          tryPipeline o q rw := by
      rw [hr]
      rfl
    rcases hp : tryPipeline o q rw with e' | r'
    · rcases hfb : tryPipeline o q q with e'' | r''
      · rw [perQuery, hmain, hp, hfb]
      · rw [perQuery, hmain, hp, hfb]
        exact (tryPipeline_ok o q q r'' hfb).1
    · rw [perQuery, hmain, hp]
      exact (tryPipeline_ok o q rw r' hp).1

/-- Indexing through the zip of queries and their oracles. -/
theorem qmrv_get? (queries : List String) (oracles : List QueryOracle) :
    ∀ i, (queryMultipleRewrittenVectors queries oracles).get? i =
      (queries.get? i).bind fun q => (oracles.get? i).map (perQuery q) := by
  induction queries generalizing oracles with
  | nil => intro i; simp [queryMultipleRewrittenVectors]
  | cons q qs ih =>
    intro i
    cases oracles with
    | nil => simp [queryMultipleRewrittenVectors]
    | cons o os =>
      cases i with
      | zero => simp [queryMultipleRewrittenVectors]
      | succ i =>
        simpa [queryMultipleRewrittenVectors] using ih os i

/-- C7: a failure of the rewrite step, or of the embedding of the
rewritten query, makes the per-query closure re-run the pipeline with the
original query as the rewritten one; if that fallback also fails, the
emitted record is `{originalQuery, rewrittenQuery = originalQuery,
vectorResults = {matches: []}}`; and the fan-out maps each query
independently to its own record in input order, so one query's failure
never removes or alters the result of another. -/
theorem c7_perQueryFallback :
    (∀ q o, (o.rewrite = .error () ∨
        ∃ rw, o.rewrite = .ok rw ∧ o.embed rw = .error ()) →
      perQuery q o = (match tryPipeline o q q with
        | .ok r => r
        | .error _ => ⟨q, q, ⟨[]⟩⟩)) ∧
    (∀ q o, (o.rewrite = .error () ∨
        ∃ rw, o.rewrite = .ok rw ∧ o.embed rw = .error ()) →
      tryPipeline o q q = .error () →
      perQuery q o = ⟨q, q, ⟨[]⟩⟩) ∧
    (∀ queries oracles,
      ((queryMultipleRewrittenVectors queries oracles).map
          (·.originalQuery) = queries.take oracles.length) ∧
      ∀ i, (queryMultipleRewrittenVectors queries oracles).get? i =
        (queries.get? i).bind fun q => (oracles.get? i).map (perQuery q)) := by
  have hfall : ∀ q o, (o.rewrite = .error () ∨
      ∃ rw, o.rewrite = .ok rw ∧ o.embed rw = .error ()) →
      perQuery q o = (match tryPipeline o q q with
        | .ok r => r
        | .error _ => ⟨q, q, ⟨[]⟩⟩) := by
    intro q o h
    rcases h with hr | ⟨rw, hr, he⟩
    · have hmain : (do
          let rw ← o.rewrite
          tryPipeline o q rw : Except Unit RewrittenQueryResult) =
            .error () := by
        rw [hr]
        rfl
      rw [perQuery, hmain]
    · have hp : tryPipeline o q rw = .error () := by
        rw [tryPipeline, he]
        rfl
      have hmain : (do
          let rw ← o.rewrite
          tryPipeline o q rw : Except Unit RewrittenQueryResult) =
            .error () := by
        rw [hr]
        show tryPipeline o q rw = _
        rw [hp]
      rw [perQuery, hmain]
  refine ⟨hfall, ?_, ?_⟩
  · intro q o h hfb
    rw [hfall q o h, hfb]
  · intro queries oracles
    constructor
    · induction queries generalizing oracles with
      | nil => simp [queryMultipleRewrittenVectors]
      | cons q qs ih =>
        cases oracles with
        | nil => simp [queryMultipleRewrittenVectors]
        | cons o os =>
          simp [queryMultipleRewrittenVectors, perQuery_originalQuery,
            List.take_cons]
          exact ih os
    · exact qmrv_get? queries oracles

/-- The all-failing oracle of the C7 witness. -/
def c7BadOracle : QueryOracle :=
  ⟨.error (), fun _ => .error (), fun _ => .error ()⟩

/-- C7 witness: with an oracle whose rewrite and embedding both fail, the
per-query result is the empty record for that query. -/
theorem c7_witness :
    (c7BadOracle.rewrite = .error () ∨
      ∃ rw, c7BadOracle.rewrite = .ok rw ∧ c7BadOracle.embed rw = .error ()) ∧
    tryPipeline c7BadOracle "w" "w" = .error () ∧
    perQuery "w" c7BadOracle = ⟨"w", "w", ⟨[]⟩⟩ :=
  ⟨Or.inl rfl, rfl,
   c7_perQueryFallback.2.1 "w" c7BadOracle (Or.inl rfl) rfl⟩

/-! ### C9 — the parse step of structured generation -/

/-- C9 counterexample: for the structuring output `"xyz"` (not valid
JSON, unchanged by sanitizing), the code's parse stage surfaces the plain
parse error, while the claim demands a `StructuredGenerationError` after a
parse/sanitize/re-parse sequence — and the two errors differ; the code
performs no such sequence and no `StructuredGenerationError` exists in
it. -/
theorem c9_counterexample :
    parseStage (.strOut "xyz") = .error .parseFailure ∧
    parseStageSpec (.strOut "xyz") = .error .structuredGenFailure ∧
    StructErr.parseFailure ≠ StructErr.structuredGenFailure := by
  refine ⟨by with_unfolding_all rfl, by with_unfolding_all rfl, ?_⟩
  intro h
  cases h

/-- Unfolding of the string case of the parse stage. -/
theorem parseStage_strOut (s : String) :
    parseStage (.strOut s) = parseResult (jsonParse (cleanJsonOutput s)) :=
  rfl

/-- C9 (amended): when the structuring model returns a string, the code
applies `cleanJsonOutput` first and then parses exactly once: a successful
parse of the sanitized output is returned, a failed parse surfaces the raw
parse error — never a `StructuredGenerationError`, and with no second
parse attempt; an already-decoded object is returned as-is. -/
theorem c9_amended (s : String) :
    (∀ j, jsonParse (cleanJsonOutput s) = some j →
      parseStage (.strOut s) = .ok j) ∧
    (jsonParse (cleanJsonOutput s) = none →
      parseStage (.strOut s) = .error .parseFailure) ∧
    parseStage (.strOut s) ≠ .error .structuredGenFailure ∧
    parseAttempts (.strOut s) = 1 ∧
    ∀ j, parseStage (.objOut j) = .ok j := by
  refine ⟨?_, ?_, ?_, rfl, fun j => rfl⟩
  · intro j hj
    rw [parseStage_strOut, hj]
    rfl
  · intro hn
    rw [parseStage_strOut, hn]
    rfl
  · intro hcontra
    rcases hp : jsonParse (cleanJsonOutput s) with _ | j
    · rw [parseStage_strOut, hp] at hcontra
      cases hcontra
    · rw [parseStage_strOut, hp] at hcontra
      cases hcontra

/-- C9 witness: at the concrete structuring output `"xyz"` the amended
behavior is exhibited — sanitized parse fails and the parse error is
surfaced. -/
theorem c9_witness :
    jsonParse (cleanJsonOutput "xyz") = none ∧
    parseStage (.strOut "xyz") = .error .parseFailure :=
  ⟨by with_unfolding_all rfl,
   (c9_amended "xyz").2.1 (by with_unfolding_all rfl)⟩

end Engram
